import Mathlib

/-!
# Shared-memory bridge (`SoundStream2Helper/shm_bridge.h`)

The header defines two `static inline` C functions,

    int shm_open_bridge(const char *name, int oflag, int mode)
        { return shm_open(name, oflag, (mode_t)mode); }
    int shm_unlink_bridge(const char *name)
        { return shm_unlink(name); }

Both delegate to the host's `shm_open` / `shm_unlink`.  Those two functions are
not part of the repository, so the embedding takes them as a parameter: a
`Host` is a pair of state-transition functions over an arbitrary host state
`σ`, together with the bit width of the host's unsigned `mode_t`.  C `int`
values are mathematical integers; the conversion `(mode_t)mode` of a signed
integer to an unsigned type of `w` bits is reduction modulo `2 ^ w`.
-/

namespace ShmBridge

/-! ## The embedding of the source -/

/-- The C conversion `(mode_t)m` of an integer to the unsigned type `mode_t` of `w` bits:
the unique value in `[0, 2 ^ w)` congruent to `m` modulo `2 ^ w`. -/
def mode_t_cast (w : Nat) (m : Int) : Nat :=
  (m % (2 : Int) ^ w).toNat

/-- The host operating system as the bridge sees it.  `shm_open name oflag mode s` and
`shm_unlink name s` run one host request in host state `s` (namespace, handle table,
error state, ...) and give the returned integer together with the state the request
leaves behind.  `mode_bits` is the width of the host's unsigned `mode_t`.  The name
type `ν` is whatever the host takes a `const char *` to denote. -/
structure Host (ν σ : Type) where
  mode_bits : Nat
  shm_open : ν → Int → Nat → σ → Int × σ
  shm_unlink : ν → σ → Int × σ

/-- Source: `return shm_open(name, oflag, (mode_t)mode);` -/
def shm_open_bridge {ν σ : Type} (H : Host ν σ) (name : ν) (oflag mode : Int) (s : σ) :
    Int × σ :=
  H.shm_open name oflag (mode_t_cast H.mode_bits mode) s

/-- Source: `return shm_unlink(name);` -/
def shm_unlink_bridge {ν σ : Type} (H : Host ν σ) (name : ν) (s : σ) : Int × σ :=
  H.shm_unlink name s

/-! ## Observing the requests a caller of the host makes -/

/-- One request received by the host, with the arguments it was given. -/
inductive HostCall (ν : Type) where
  | shm_open (name : ν) (oflag : Int) (mode : Nat)
  | shm_unlink (name : ν)
  deriving DecidableEq, Repr

/-- The host `H` with a request log: every request is answered by `H` exactly as before
and is appended, with its arguments, to the log carried next to the host state. -/
def traced {ν σ : Type} (H : Host ν σ) : Host ν (σ × List (HostCall ν)) where
  mode_bits := H.mode_bits
  shm_open := fun name oflag mode st =>
    ((H.shm_open name oflag mode st.1).1,
      ((H.shm_open name oflag mode st.1).2, st.2 ++ [HostCall.shm_open name oflag mode]))
  shm_unlink := fun name st =>
    ((H.shm_unlink name st.1).1,
      ((H.shm_unlink name st.1).2, st.2 ++ [HostCall.shm_unlink name]))

/-! ## The host contract

The claims about create / unlink sequences speak of what the host namespace does.
The host is outside the repository, so its behaviour enters as explicit laws on the
`Host` parameter, worded after the specification's description of the host.  The laws
leave room for every failure the specification lists: a create may be refused for lack
of permission or of resources, an unlink for lack of permission. -/

/-- Modelled from the spec: the causes of failure the host reports through its
side-channel error state (the host itself is not in the repository). -/
inductive HostError where
  | NameInvalid
  | AlreadyExists
  | NotFound
  | PermissionDenied
  | ResourceExhausted
  deriving DecidableEq, Repr

/-- Modelled from the spec: what can be observed of a host state (the host itself is not
in the repository).  `validName` is the namespace's naming rule, `binding s n` is the
object that name `n` is bound to in the namespace of state `s` (`none` when `n` has
no binding), `error s` is the side-channel error state, and `creat` / `excl` read the
create-if-absent and exclusive-create bits of an open-flags value. -/
structure HostView (ν σ : Type) where
  validName : ν → Bool
  binding : σ → ν → Option Nat
  error : σ → Option HostError
  creat : Int → Bool
  excl : Int → Bool

/-- Modelled from the spec: name `n` has a binding in the namespace of state `s` (the host
namespace is not in the repository). -/
def HostView.bound {ν σ : Type} (V : HostView ν σ) (s : σ) (n : ν) : Bool :=
  (V.binding s n).isSome

/-- Modelled from the spec: the outcome of a host open request (the host `shm_open` is not
in the repository) with the create flag on a valid name that has no binding.  Either
it succeeds with a non-negative handle and binds the name, or the host refuses it
with a negative result, for lack of permission or of resources, and then no binding
changes. -/
def CreateFreshOutcome {ν σ : Type} (H : Host ν σ) (V : HostView ν σ) : Prop :=
  ∀ (name : ν) (oflag : Int) (mode : Nat) (s : σ),
    V.validName name = true → V.bound s name = false → V.creat oflag = true →
      (0 ≤ (H.shm_open name oflag mode s).1 ∧
          V.bound (H.shm_open name oflag mode s).2 name = true) ∨
        ((H.shm_open name oflag mode s).1 < 0 ∧
          (V.error (H.shm_open name oflag mode s).2 = some HostError.PermissionDenied ∨
            V.error (H.shm_open name oflag mode s).2 = some HostError.ResourceExhausted) ∧
          ∀ n : ν, V.binding (H.shm_open name oflag mode s).2 n = V.binding s n)

/-- Modelled from the spec: a host open request (the host `shm_open` is not in the
repository) with create and exclusive-create on a name that is already bound fails
with a negative result; the error state is `AlreadyExists`, unless the host refuses
the request for lack of permission or of resources before it reports that. -/
def ExclExistingFails {ν σ : Type} (H : Host ν σ) (V : HostView ν σ) : Prop :=
  ∀ (name : ν) (oflag : Int) (mode : Nat) (s : σ),
    V.bound s name = true → V.creat oflag = true → V.excl oflag = true →
      (H.shm_open name oflag mode s).1 < 0 ∧
        (V.error (H.shm_open name oflag mode s).2 = some HostError.AlreadyExists ∨
          V.error (H.shm_open name oflag mode s).2 = some HostError.PermissionDenied ∨
          V.error (H.shm_open name oflag mode s).2 = some HostError.ResourceExhausted)

/-- Modelled from the spec: a host open request (the host `shm_open` is not in the
repository) binds no name other than its own, and its own only under the create
flag. -/
def OpenBindsOnlyCreated {ν σ : Type} (H : Host ν σ) (V : HostView ν σ) : Prop :=
  ∀ (name : ν) (oflag : Int) (mode : Nat) (s : σ) (n : ν),
    V.bound (H.shm_open name oflag mode s).2 n = true →
      V.bound s n = true ∨ (n = name ∧ V.creat oflag = true)

/-- Modelled from the spec: a host unlink request (the host `shm_unlink` is not in the
repository) binds no name. -/
def UnlinkBindsNothing {ν σ : Type} (H : Host ν σ) (V : HostView ν σ) : Prop :=
  ∀ (name : ν) (s : σ) (n : ν),
    V.bound (H.shm_unlink name s).2 n = true → V.bound s n = true

/-- Modelled from the spec: the status of a host unlink request (the host `shm_unlink` is
not in the repository) is zero exactly when the request removed the binding of the
name. -/
def UnlinkStatus {ν σ : Type} (H : Host ν σ) (V : HostView ν σ) : Prop :=
  ∀ (name : ν) (s : σ),
    (H.shm_unlink name s).1 = 0 ↔
      (V.bound s name = true ∧ V.bound (H.shm_unlink name s).2 name = false)

/-- Modelled from the spec: the status of a host unlink request (the host `shm_unlink` is
not in the repository) does not tell failures apart; every failing request returns
the same non-zero value, whatever its cause. -/
def UnlinkFailureUniform {ν σ : Type} (H : Host ν σ) : Prop :=
  ∀ (n₁ n₂ : ν) (s₁ s₂ : σ),
    (H.shm_unlink n₁ s₁).1 ≠ 0 → (H.shm_unlink n₂ s₂).1 ≠ 0 →
      (H.shm_unlink n₁ s₁).1 = (H.shm_unlink n₂ s₂).1

/-- Modelled from the spec: a host unlink request (the host `shm_unlink` is not in the
repository) on a valid name that has no binding fails with a non-zero status and
error state `NotFound`, and leaves the namespace as it was: every name is bound to
the same object as before, or to none as before. -/
def UnlinkUnbound {ν σ : Type} (H : Host ν σ) (V : HostView ν σ) : Prop :=
  ∀ (name : ν) (s : σ), V.validName name = true → V.bound s name = false →
    (H.shm_unlink name s).1 ≠ 0 ∧
      V.error (H.shm_unlink name s).2 = some HostError.NotFound ∧
      ∀ n : ν, V.binding (H.shm_unlink name s).2 n = V.binding s n

/-! ## A reference host

An executable host that obeys the contract above; it serves as the concrete instance
at which the theorems are evaluated.  It refuses an open when the descriptor limit is
reached or when the object's mode bits do not grant the requested access, and an
unlink when the caller does not own the object. -/

/-- Modelled from the spec: the state of the reference host (the host itself is not in the
repository): the namespace `names` (name to object id), the open-handle table
`handles` (descriptor to object id), the creation mode of each object, whether the
caller owns each object, the next unused object id and descriptor, the descriptor
limit, and the side-channel error state. -/
structure RefState where
  names : String → Option Nat
  handles : Int → Option Nat
  modes : Nat → Option Nat
  owned : Nat → Bool
  nextObj : Nat
  nextFd : Nat
  limit : Nat
  error : Option HostError

/-- Modelled from the spec: the naming rule of the reference host (the host namespace is
not in the repository), a leading forward slash followed by at least one character
and no further slash. -/
def refValidName (name : String) : Bool :=
  match name.toList with
  | '/' :: c :: cs => !(c :: cs).contains '/'
  | _ => false

/-- Modelled from the spec: the create-if-absent bit of an open-flags value on the
reference host (the host's flag constants are not in the repository), `0x0200`. -/
def refCreat (oflag : Int) : Bool :=
  oflag / 512 % 2 == 1

/-- Modelled from the spec: the exclusive-create bit of an open-flags value on the
reference host (the host's flag constants are not in the repository), `0x0800`. -/
def refExcl (oflag : Int) : Bool :=
  oflag / 2048 % 2 == 1

/-- Modelled from the spec: whether the mode bits of an existing object grant the access
an open-flags value requests on the reference host (the host's permission check is
not in the repository): the owner-read bit `0400` always, and the owner-write bit
`0200` unless the access mode is read-only. -/
def refPermits (mode : Option Nat) (oflag : Int) : Bool :=
  match mode with
  | some m => (m / 256 % 2 == 1) && (oflag % 4 == 0 || m / 128 % 2 == 1)
  | none => false

/-- Modelled from the spec: create-or-open in the reference host, standing for the host
`shm_open`, which is not in the repository.  An invalid name fails with
`NameInvalid`.  At the descriptor limit every request fails with `ResourceExhausted`,
the descriptor being allocated before the namespace is consulted.  An existing name
fails with `AlreadyExists` under create plus exclusive-create, with
`PermissionDenied` when its mode bits do not grant the access, and is opened
otherwise.  An absent name fails with `NotFound` without the create flag and is
created otherwise, owned by the caller and with the given mode. -/
def refOpen (name : String) (oflag : Int) (mode : Nat) (s : RefState) : Int × RefState :=
  if refValidName name then
    if s.limit ≤ s.nextFd then
      (-1, { s with error := some HostError.ResourceExhausted })
    else
      match s.names name with
      | some o =>
        if refCreat oflag && refExcl oflag then
          (-1, { s with error := some HostError.AlreadyExists })
        else if !refPermits (s.modes o) oflag then
          (-1, { s with error := some HostError.PermissionDenied })
        else
          ((s.nextFd : Int),
            { s with
              handles := fun h => if h = (s.nextFd : Int) then some o else s.handles h
              nextFd := s.nextFd + 1 })
      | none =>
        if refCreat oflag then
          ((s.nextFd : Int),
            { s with
              names := fun n => if n = name then some s.nextObj else s.names n
              handles := fun h => if h = (s.nextFd : Int) then some s.nextObj else s.handles h
              modes := fun o => if o = s.nextObj then some mode else s.modes o
              owned := fun o => if o = s.nextObj then true else s.owned o
              nextObj := s.nextObj + 1
              nextFd := s.nextFd + 1 })
        else
          (-1, { s with error := some HostError.NotFound })
  else
    (-1, { s with error := some HostError.NameInvalid })

/-- Modelled from the spec: unlink in the reference host, standing for the host
`shm_unlink`, which is not in the repository.  An invalid name fails with
`NameInvalid`, an absent name with `NotFound`, a name bound to an object the caller
does not own with `PermissionDenied`; otherwise the name loses its binding and
nothing else changes. -/
def refUnlink (name : String) (s : RefState) : Int × RefState :=
  if refValidName name then
    match s.names name with
    | some o =>
      if s.owned o then
        (0, { s with names := fun n => if n = name then none else s.names n })
      else
        (-1, { s with error := some HostError.PermissionDenied })
    | none => (-1, { s with error := some HostError.NotFound })
  else
    (-1, { s with error := some HostError.NameInvalid })

/-- Modelled from the spec: the reference host (the host is not in the repository), with
a 16-bit unsigned `mode_t` as on Darwin. -/
def refHost : Host String RefState where
  mode_bits := 16
  shm_open := refOpen
  shm_unlink := refUnlink

/-- Modelled from the spec: the observations of the reference host (the host is not in
the repository).  A name is bound to the object the namespace maps it to, provided
the name is valid. -/
def refView : HostView String RefState where
  validName := refValidName
  binding := fun s n => if refValidName n then s.names n else none
  error := fun s => s.error
  creat := refCreat
  excl := refExcl

/-- Modelled from the spec: the reference host (not in the repository) before any
request: empty namespace, no open descriptor beyond the three standard ones, a limit
of 256 descriptors, no error recorded. -/
def refInit : RefState where
  names := fun _ => none
  handles := fun _ => none
  modes := fun _ => none
  owned := fun _ => false
  nextObj := 0
  nextFd := 3
  limit := 256
  error := none

/-- Modelled from the spec: the reference host (not in the repository) with an empty
namespace and its descriptor limit already reached. -/
def refFull : RefState :=
  { refInit with limit := 3 }

/-- Modelled from the spec: the reference host (not in the repository) with an empty
namespace and room for exactly one more descriptor. -/
def refTight : RefState :=
  { refInit with limit := 4 }

/-- Modelled from the spec: the reference host (not in the repository) in which `/seg` is
bound to an object of mode `0644` that another user created and the caller does not
own. -/
def refForeign : RefState :=
  { refInit with
    names := fun n => if n = "/seg" then some 0 else none
    modes := fun o => if o = 0 then some 420 else none
    nextObj := 1 }

/-! ## Histories of bridge calls -/

/-- One call of a bridge function, with its arguments. -/
inductive BridgeCall (ν : Type) where
  | shm_open_bridge (name : ν) (oflag mode : Int)
  | shm_unlink_bridge (name : ν)
  deriving DecidableEq, Repr

/-- Run one bridge call in host state `s`: the returned integer and the state it leaves. -/
def runCall {ν σ : Type} (H : Host ν σ) : BridgeCall ν → σ → Int × σ
  | BridgeCall.shm_open_bridge name oflag mode, s => shm_open_bridge H name oflag mode s
  | BridgeCall.shm_unlink_bridge name, s => shm_unlink_bridge H name s

/-- The host state after a history of bridge calls, run one after the other from `s`. -/
def runCalls {ν σ : Type} (H : Host ν σ) : List (BridgeCall ν) → σ → σ
  | [], s => s
  | c :: cs, s => runCalls H cs (runCall H c s).2

theorem mode_t_cast_coe (w : Nat) (m : Int) :
    ((mode_t_cast w m : Nat) : Int) = m % (2 : Int) ^ w := by
  unfold mode_t_cast
  exact Int.toNat_of_nonneg (Int.emod_nonneg _ (by positivity))

theorem mode_t_cast_lt (w : Nat) (m : Int) : mode_t_cast w m < 2 ^ w := by
  have h : ((mode_t_cast w m : Nat) : Int) < ((2 ^ w : Nat) : Int) := by
    rw [mode_t_cast_coe]
    push_cast
    exact Int.emod_lt_of_pos _ (by positivity)
  exact_mod_cast h

theorem mode_t_cast_emod (w : Nat) (m : Int) :
    mode_t_cast w (m % (2 : Int) ^ w) = mode_t_cast w m := by
  unfold mode_t_cast
  rw [Int.emod_emod]

theorem mode_t_cast_eq_self_iff (w : Nat) (m : Int) :
    ((mode_t_cast w m : Nat) : Int) = m ↔ 0 ≤ m ∧ m < (2 : Int) ^ w := by
  rw [mode_t_cast_coe]
  constructor
  · intro h
    rw [← h]
    exact ⟨Int.emod_nonneg _ (by positivity), Int.emod_lt_of_pos _ (by positivity)⟩
  · rintro ⟨h0, h1⟩
    exact Int.emod_eq_of_lt h0 h1

/-! ## The reference host obeys the host contract -/

theorem refView_bound_iff (s : RefState) (n : String) :
    refView.bound s n = true ↔ refValidName n = true ∧ ∃ o, s.names n = some o := by
  unfold HostView.bound
  simp only [refView]
  by_cases hv : refValidName n = true
  · simp [hv, Option.isSome_iff_exists]
  · simp [hv]

theorem refView_names_none (s : RefState) (n : String)
    (hv : refValidName n = true) (hb : refView.bound s n = false) : s.names n = none := by
  cases hn : s.names n with
  | none => rfl
  | some o =>
    have h := (refView_bound_iff s n).mpr ⟨hv, o, hn⟩
    rw [hb] at h
    exact absurd h (by decide)

theorem refHost_createFreshOutcome : CreateFreshOutcome refHost refView := by
  intro name oflag mode s hv hb hc
  have hn := refView_names_none s name hv hb
  simp only [refView] at hv hc
  by_cases hl : s.limit ≤ s.nextFd
  · right
    simp [refHost, refView, refOpen, hv, hl]
  · left
    refine ⟨?_, ?_⟩
    · simp [refHost, refOpen, hv, hn, hc, hl]
    · rw [refView_bound_iff]
      refine ⟨hv, s.nextObj, ?_⟩
      simp [refHost, refOpen, hv, hn, hc, hl]

theorem refHost_exclExistingFails : ExclExistingFails refHost refView := by
  intro name oflag mode s hb hc he
  obtain ⟨hv, o, ho⟩ := (refView_bound_iff s name).mp hb
  simp only [refView] at hc he
  by_cases hl : s.limit ≤ s.nextFd
  · simp [refHost, refView, refOpen, hv, hl]
  · simp [refHost, refView, refOpen, hv, ho, hc, he, hl]

theorem refOpen_names (name : String) (oflag : Int) (mode : Nat) (s : RefState) (n : String) :
    (refOpen name oflag mode s).2.names n = s.names n ∨
      (n = name ∧ refCreat oflag = true ∧ s.names n = none ∧ 0 ≤ (refOpen name oflag mode s).1 ∧
        (refOpen name oflag mode s).2.names n = some s.nextObj) := by
  unfold refOpen
  split
  · split
    · exact Or.inl rfl
    · split
      · split
        · exact Or.inl rfl
        · split
          · exact Or.inl rfl
          · exact Or.inl rfl
      · rename_i hnone
        split
        · rename_i hc
          by_cases hnn : n = name
          · right
            subst hnn
            exact ⟨rfl, hc, hnone, by simp, by simp⟩
          · left
            simp [hnn]
        · exact Or.inl rfl
  · exact Or.inl rfl

theorem refHost_openBindsOnlyCreated : OpenBindsOnlyCreated refHost refView := by
  intro name oflag mode s n hb
  obtain ⟨hv, o, ho⟩ := (refView_bound_iff _ n).mp hb
  simp only [refHost] at ho
  rcases refOpen_names name oflag mode s n with h | ⟨hn, hc, _, _, _⟩
  · left
    rw [h] at ho
    exact (refView_bound_iff s n).mpr ⟨hv, o, ho⟩
  · exact Or.inr ⟨hn, hc⟩

theorem refUnlink_cases (name : String) (s : RefState) :
    ((refUnlink name s).1 = 0 ∧ refValidName name = true ∧ (∃ o, s.names name = some o) ∧
        (refUnlink name s).2.names = fun n => if n = name then none else s.names n) ∨
      ((refUnlink name s).1 = -1 ∧ (refUnlink name s).2.names = s.names) := by
  unfold refUnlink
  split
  · rename_i hv
    split
    · rename_i o ho
      split
      · exact Or.inl ⟨rfl, hv, ⟨o, ho⟩, rfl⟩
      · exact Or.inr ⟨rfl, rfl⟩
    · exact Or.inr ⟨rfl, rfl⟩
  · exact Or.inr ⟨rfl, rfl⟩

theorem refHost_unlinkUnbound : UnlinkUnbound refHost refView := by
  intro name s hv hb
  have hn := refView_names_none s name hv hb
  simp only [refView] at hv
  simp [refHost, refView, refUnlink, hv, hn]

theorem refHost_unlinkStatus : UnlinkStatus refHost refView := by
  intro name s
  simp only [refHost]
  rcases refUnlink_cases name s with ⟨h0, hv, ⟨o, ho⟩, hnames⟩ | ⟨h1, hnames⟩
  · constructor
    · intro _
      refine ⟨(refView_bound_iff s name).mpr ⟨hv, o, ho⟩, ?_⟩
      cases hb : refView.bound (refUnlink name s).2 name with
      | false => rfl
      | true =>
        obtain ⟨_, o', ho'⟩ := (refView_bound_iff _ name).mp hb
        rw [hnames] at ho'
        simp at ho'
    · intro _
      exact h0
  · constructor
    · intro h
      rw [h1] at h
      exact absurd h (by decide)
    · rintro ⟨hb, hnb⟩
      exfalso
      obtain ⟨hv, o, ho⟩ := (refView_bound_iff s name).mp hb
      have h := (refView_bound_iff (refUnlink name s).2 name).mpr ⟨hv, o, by rw [hnames]; exact ho⟩
      rw [hnb] at h
      exact absurd h (by decide)

theorem refHost_unlinkFailureUniform : UnlinkFailureUniform refHost := by
  intro n₁ n₂ s₁ s₂ h₁ h₂
  simp only [refHost] at h₁ h₂ ⊢
  rcases refUnlink_cases n₁ s₁ with ⟨a, _⟩ | ⟨a, _⟩
  · exact absurd a h₁
  · rcases refUnlink_cases n₂ s₂ with ⟨b, _⟩ | ⟨b, _⟩
    · exact absurd b h₂
    · rw [a, b]

theorem refHost_unlinkBindsNothing : UnlinkBindsNothing refHost refView := by
  intro name s n hb
  obtain ⟨hv, o, ho⟩ := (refView_bound_iff _ n).mp hb
  simp only [refHost] at ho
  rw [refView_bound_iff]
  refine ⟨hv, o, ?_⟩
  rcases refUnlink_cases name s with ⟨_, _, _, hnames⟩ | ⟨_, hnames⟩
  · rw [hnames] at ho
    by_cases hnn : n = name
    · simp [hnn] at ho
    · simpa [hnn] using ho
  · rw [hnames] at ho
    exact ho

/-! ## Facts about histories of calls -/

/-- A name that is unbound and that no call of the history creates is unbound after the
history. -/
theorem runCalls_unbound {ν σ : Type} (H : Host ν σ) (V : HostView ν σ) (name : ν)
    (hopen : OpenBindsOnlyCreated H V) (hunl : UnlinkBindsNothing H V) :
    ∀ (cs : List (BridgeCall ν)) (s : σ), V.bound s name = false →
      (∀ (oflag mode : Int),
        BridgeCall.shm_open_bridge name oflag mode ∈ cs → V.creat oflag = false) →
      V.bound (runCalls H cs s) name = false := by
  intro cs
  induction cs with
  | nil => intro s hb _; exact hb
  | cons c cs ih =>
    intro s hb hnever
    have hrest : ∀ (oflag mode : Int),
        BridgeCall.shm_open_bridge name oflag mode ∈ cs → V.creat oflag = false :=
      fun oflag mode hm => hnever oflag mode (List.mem_cons_of_mem _ hm)
    have hstep : V.bound (runCall H c s).2 name = false := by
      cases hcur : V.bound (runCall H c s).2 name with
      | false => rfl
      | true =>
        exfalso
        cases c with
        | shm_open_bridge n oflag mode =>
          rcases hopen n oflag (mode_t_cast H.mode_bits mode) s name hcur with h | ⟨hn, hc⟩
          · rw [hb] at h
            exact Bool.false_ne_true h
          · have hf := hnever oflag mode (by rw [hn]; exact List.mem_cons_self _ _)
            rw [hf] at hc
            exact Bool.false_ne_true hc
        | shm_unlink_bridge n =>
          have h := hunl n s name hcur
          rw [hb] at h
          exact Bool.false_ne_true h
    exact ih (runCall H c s).2 hstep hrest

/-- C1: `shm_open_bridge` is a thin pass-through.  For every host, name, flags value,
integer mode and host state it returns what the host `shm_open` returns for the same
name, the same flags and the mode narrowed to `mode_t` (a value below `2 ^ mode_bits`
congruent to the mode), it leaves the host state as that request leaves it, and on a
logging host the log grows by exactly that one request. -/
theorem shm_open_bridge_passthrough {ν σ : Type} (H : Host ν σ) (name : ν)
    (oflag mode : Int) (s : σ) (log : List (HostCall ν)) :
    shm_open_bridge H name oflag mode s
        = H.shm_open name oflag (mode_t_cast H.mode_bits mode) s ∧
      mode_t_cast H.mode_bits mode < 2 ^ H.mode_bits ∧
      ((mode_t_cast H.mode_bits mode : Nat) : Int) = mode % (2 : Int) ^ H.mode_bits ∧
      shm_open_bridge (traced H) name oflag mode (s, log)
        = ((H.shm_open name oflag (mode_t_cast H.mode_bits mode) s).1,
            ((H.shm_open name oflag (mode_t_cast H.mode_bits mode) s).2,
              log ++ [HostCall.shm_open name oflag (mode_t_cast H.mode_bits mode)])) :=
  ⟨rfl, mode_t_cast_lt _ _, mode_t_cast_coe _ _, rfl⟩

/-- C2: permission-mode narrowing wraps modulo the host mode width.  For every host, name,
flags, state and integer mode `m` (negative or beyond `2 ^ mode_bits` included), the
call with `m` gives the same returned value and the same host state as the call with
the non-negative remainder `m % 2 ^ mode_bits`; the request is always made (on a
logging host the log grows by the request carrying the wrapped mode), never rejected. -/
theorem shm_open_bridge_mode_wraps {ν σ : Type} (H : Host ν σ) (name : ν)
    (oflag m : Int) (s : σ) (log : List (HostCall ν)) :
    shm_open_bridge H name oflag m s
        = shm_open_bridge H name oflag (m % (2 : Int) ^ H.mode_bits) s ∧
      (0 ≤ m % (2 : Int) ^ H.mode_bits ∧ m % (2 : Int) ^ H.mode_bits < (2 : Int) ^ H.mode_bits) ∧
      (shm_open_bridge (traced H) name oflag m (s, log)).2.2
        = log ++ [HostCall.shm_open name oflag (m % (2 : Int) ^ H.mode_bits).toNat] := by
  refine ⟨?_, ⟨Int.emod_nonneg _ (by positivity), Int.emod_lt_of_pos _ (by positivity)⟩, rfl⟩
  unfold shm_open_bridge
  rw [mode_t_cast_emod]

/-- C3 (as stated, refuted): with a 16-bit `mode_t` the caller's mode `-1` reaches the
host as `65535`, which is not the value the caller supplied. -/
theorem shm_open_bridge_mode_altered :
    (shm_open_bridge (traced refHost) "/seg" 514 (-1) (refInit, [])).2.2
        = [HostCall.shm_open "/seg" 514 65535] ∧
      ((65535 : Nat) : Int) ≠ -1 := by
  constructor
  · rfl
  · decide

/-- C3 (amended): the mode the host receives from `shm_open_bridge` is the caller's mode
reduced modulo `2 ^ mode_bits`; it is numerically equal to the caller's mode exactly
when that mode lies in `[0, 2 ^ mode_bits)`.  Out-of-range modes are wrapped, not
clamped. -/
theorem shm_open_bridge_mode_received {ν σ : Type} (H : Host ν σ) (name : ν)
    (oflag mode : Int) (s : σ) (log : List (HostCall ν)) :
    (shm_open_bridge (traced H) name oflag mode (s, log)).2.2
        = log ++ [HostCall.shm_open name oflag (mode_t_cast H.mode_bits mode)] ∧
      ((mode_t_cast H.mode_bits mode : Nat) : Int) = mode % (2 : Int) ^ H.mode_bits ∧
      (((mode_t_cast H.mode_bits mode : Nat) : Int) = mode ↔
        0 ≤ mode ∧ mode < (2 : Int) ^ H.mode_bits) :=
  ⟨rfl, mode_t_cast_coe _ _, mode_t_cast_eq_self_iff _ _⟩

/-- C4: `shm_unlink_bridge` forwards the host status unchanged.  For every host, name and
state it returns what the host `shm_unlink` returns for that name and leaves the host
state as that request leaves it; on a logging host the log grows by exactly that one
request.  Hence, with the host convention that status zero means the binding was
removed, the bridge returns zero exactly when the host removed the binding and a
non-zero value exactly when it did not; and since the host status does not tell
failures apart, neither does the returned value. -/
theorem shm_unlink_bridge_forwards_status {ν σ : Type} (H : Host ν σ) (V : HostView ν σ)
    (name : ν) (s : σ) (log : List (HostCall ν))
    (hconv : UnlinkStatus H V) (huni : UnlinkFailureUniform H) :
    shm_unlink_bridge H name s = H.shm_unlink name s ∧
      shm_unlink_bridge (traced H) name (s, log)
        = ((H.shm_unlink name s).1, ((H.shm_unlink name s).2, log ++ [HostCall.shm_unlink name])) ∧
      ((shm_unlink_bridge H name s).1 = 0 ↔
        (V.bound s name = true ∧ V.bound (shm_unlink_bridge H name s).2 name = false)) ∧
      ((shm_unlink_bridge H name s).1 ≠ 0 ↔
        ¬ (V.bound s name = true ∧ V.bound (shm_unlink_bridge H name s).2 name = false)) ∧
      (∀ (name' : ν) (s' : σ), (shm_unlink_bridge H name s).1 ≠ 0 →
        (shm_unlink_bridge H name' s').1 ≠ 0 →
          (shm_unlink_bridge H name s).1 = (shm_unlink_bridge H name' s').1) := by
  refine ⟨rfl, rfl, hconv name s, not_congr (hconv name s), ?_⟩
  intro name' s' h₁ h₂
  exact huni name name' s s' h₁ h₂

/-- Witness for C4 on the reference host: unlinking the unbound name `/seg` in the initial
state. -/
theorem shm_unlink_bridge_forwards_status_witness :
    shm_unlink_bridge refHost "/seg" refInit = refHost.shm_unlink "/seg" refInit ∧
      shm_unlink_bridge (traced refHost) "/seg" (refInit, [])
        = ((refHost.shm_unlink "/seg" refInit).1,
            ((refHost.shm_unlink "/seg" refInit).2, [] ++ [HostCall.shm_unlink "/seg"])) ∧
      ((shm_unlink_bridge refHost "/seg" refInit).1 = 0 ↔
        (refView.bound refInit "/seg" = true ∧
          refView.bound (shm_unlink_bridge refHost "/seg" refInit).2 "/seg" = false)) ∧
      ((shm_unlink_bridge refHost "/seg" refInit).1 ≠ 0 ↔
        ¬ (refView.bound refInit "/seg" = true ∧
          refView.bound (shm_unlink_bridge refHost "/seg" refInit).2 "/seg" = false)) ∧
      (∀ (name' : String) (s' : RefState), (shm_unlink_bridge refHost "/seg" refInit).1 ≠ 0 →
        (shm_unlink_bridge refHost name' s').1 ≠ 0 →
          (shm_unlink_bridge refHost "/seg" refInit).1 = (shm_unlink_bridge refHost name' s').1) :=
  shm_unlink_bridge_forwards_status refHost refView "/seg" refInit []
    refHost_unlinkStatus refHost_unlinkFailureUniform

/-! ## Create and unlink sequences through the bridge -/

/-- C5 (as stated, refuted): on the reference host at its descriptor limit, `/seg` is a
valid name with no binding, both calls carry create-if-absent and exclusive-create,
and yet neither of the two `shm_open_bridge` calls returns a valid handle.  And
with room for exactly one more descriptor the first call returns descriptor `3` and
the second fails with error state `ResourceExhausted`, not `AlreadyExists`. -/
theorem exclusive_create_twice_refused :
    (refView.validName "/seg" = true ∧ refView.bound refFull "/seg" = false ∧
        refView.bound refTight "/seg" = false ∧
        refView.creat 2562 = true ∧ refView.excl 2562 = true) ∧
      ((shm_open_bridge refHost "/seg" 2562 420 refFull).1 = -1 ∧
        (shm_open_bridge refHost "/seg" 2562 420
          (shm_open_bridge refHost "/seg" 2562 420 refFull).2).1 = -1 ∧
        refView.error (shm_open_bridge refHost "/seg" 2562 420
          (shm_open_bridge refHost "/seg" 2562 420 refFull).2).2
            = some HostError.ResourceExhausted) ∧
      ((shm_open_bridge refHost "/seg" 2562 420 refTight).1 = 3 ∧
        (shm_open_bridge refHost "/seg" 2562 420
          (shm_open_bridge refHost "/seg" 2562 420 refTight).2).1 = -1 ∧
        refView.error (shm_open_bridge refHost "/seg" 2562 420
          (shm_open_bridge refHost "/seg" 2562 420 refTight).2).2
            = some HostError.ResourceExhausted) := by
  refine ⟨⟨rfl, rfl, rfl, rfl, rfl⟩, ⟨rfl, rfl, rfl⟩, ⟨rfl, rfl, rfl⟩⟩

/-- C5 (amended): exclusive create is exclusive, up to refusals by the host.  For a valid
name with no binding and two `shm_open_bridge` calls in immediate succession, both
with create-if-absent and exclusive-create in their flags (any modes): either the
first call returns a non-negative handle and the second returns a negative value,
with error state `AlreadyExists` unless the host refuses it with `PermissionDenied`
or `ResourceExhausted`; or the host refuses the first call (negative value, error
state `PermissionDenied` or `ResourceExhausted`) and the name stays unbound.  The two
calls never both return a valid handle.  (The first call needs only the create
flag.) -/
theorem exclusive_create_twice {ν σ : Type} (H : Host ν σ) (V : HostView ν σ)
    (name : ν) (oflag₁ mode₁ oflag₂ mode₂ : Int) (s : σ)
    (hout : CreateFreshOutcome H V) (hexcl : ExclExistingFails H V)
    (hv : V.validName name = true) (hb : V.bound s name = false)
    (hc₁ : V.creat oflag₁ = true)
    (hc₂ : V.creat oflag₂ = true) (he₂ : V.excl oflag₂ = true) :
    ((0 ≤ (shm_open_bridge H name oflag₁ mode₁ s).1 ∧
        (shm_open_bridge H name oflag₂ mode₂ (shm_open_bridge H name oflag₁ mode₁ s).2).1 < 0 ∧
        (V.error (shm_open_bridge H name oflag₂ mode₂
            (shm_open_bridge H name oflag₁ mode₁ s).2).2 = some HostError.AlreadyExists ∨
          V.error (shm_open_bridge H name oflag₂ mode₂
            (shm_open_bridge H name oflag₁ mode₁ s).2).2 = some HostError.PermissionDenied ∨
          V.error (shm_open_bridge H name oflag₂ mode₂
            (shm_open_bridge H name oflag₁ mode₁ s).2).2
              = some HostError.ResourceExhausted)) ∨
      ((shm_open_bridge H name oflag₁ mode₁ s).1 < 0 ∧
        (V.error (shm_open_bridge H name oflag₁ mode₁ s).2 = some HostError.PermissionDenied ∨
          V.error (shm_open_bridge H name oflag₁ mode₁ s).2
            = some HostError.ResourceExhausted) ∧
        V.bound (shm_open_bridge H name oflag₁ mode₁ s).2 name = false)) ∧
      ¬ (0 ≤ (shm_open_bridge H name oflag₁ mode₁ s).1 ∧
        0 ≤ (shm_open_bridge H name oflag₂ mode₂
          (shm_open_bridge H name oflag₁ mode₁ s).2).1) := by
  have hcases := hout name oflag₁ (mode_t_cast H.mode_bits mode₁) s hv hb hc₁
  rcases hcases with ⟨hok, hb₁⟩ | ⟨hneg, herr, hsame⟩
  · have h₂ := hexcl name oflag₂ (mode_t_cast H.mode_bits mode₂)
      (shm_open_bridge H name oflag₁ mode₁ s).2 hb₁ hc₂ he₂
    refine ⟨Or.inl ⟨hok, h₂.1, h₂.2⟩, ?_⟩
    rintro ⟨_, h⟩
    have : (shm_open_bridge H name oflag₂ mode₂
      (shm_open_bridge H name oflag₁ mode₁ s).2).1 < 0 := h₂.1
    omega
  · have hb₁ : V.bound (shm_open_bridge H name oflag₁ mode₁ s).2 name = false := by
      unfold HostView.bound at hb ⊢
      rw [← hb]
      exact congrArg Option.isSome (hsame name)
    refine ⟨Or.inr ⟨hneg, herr, hb₁⟩, ?_⟩
    rintro ⟨h, _⟩
    have : (shm_open_bridge H name oflag₁ mode₁ s).1 < 0 := hneg
    omega

/-- Witness for C5 (amended) on the reference host: two exclusive creates of `/seg` (flags
`O_RDWR|O_CREAT|O_EXCL`, mode `0644`) from the initial state. -/
theorem exclusive_create_twice_witness :
    ((shm_open_bridge refHost "/seg" 2562 420 refInit).1 = 3 ∧
      refView.error (shm_open_bridge refHost "/seg" 2562 420
        (shm_open_bridge refHost "/seg" 2562 420 refInit).2).2
          = some HostError.AlreadyExists) ∧
    (((0 ≤ (shm_open_bridge refHost "/seg" 2562 420 refInit).1 ∧
        (shm_open_bridge refHost "/seg" 2562 420
          (shm_open_bridge refHost "/seg" 2562 420 refInit).2).1 < 0 ∧
        (refView.error (shm_open_bridge refHost "/seg" 2562 420
            (shm_open_bridge refHost "/seg" 2562 420 refInit).2).2
              = some HostError.AlreadyExists ∨
          refView.error (shm_open_bridge refHost "/seg" 2562 420
            (shm_open_bridge refHost "/seg" 2562 420 refInit).2).2
              = some HostError.PermissionDenied ∨
          refView.error (shm_open_bridge refHost "/seg" 2562 420
            (shm_open_bridge refHost "/seg" 2562 420 refInit).2).2
              = some HostError.ResourceExhausted)) ∨
      ((shm_open_bridge refHost "/seg" 2562 420 refInit).1 < 0 ∧
        (refView.error (shm_open_bridge refHost "/seg" 2562 420 refInit).2
            = some HostError.PermissionDenied ∨
          refView.error (shm_open_bridge refHost "/seg" 2562 420 refInit).2
            = some HostError.ResourceExhausted) ∧
        refView.bound (shm_open_bridge refHost "/seg" 2562 420 refInit).2 "/seg" = false)) ∧
      ¬ (0 ≤ (shm_open_bridge refHost "/seg" 2562 420 refInit).1 ∧
        0 ≤ (shm_open_bridge refHost "/seg" 2562 420
          (shm_open_bridge refHost "/seg" 2562 420 refInit).2).1)) :=
  ⟨⟨rfl, rfl⟩, exclusive_create_twice refHost refView "/seg" 2562 420 2562 420 refInit
    refHost_createFreshOutcome refHost_exclExistingFails rfl rfl rfl rfl rfl⟩

/-- C7: unlink of a name that was never created fails.  On a host whose requests bind only
what a creating open names and which reports `NotFound` for valid unbound names: for
a valid name that is unbound in a state `s₀` and that no call of a history `cs` of
bridge calls creates (the empty history included), `shm_unlink_bridge` after the
history returns a non-zero status, leaves the error state at `NotFound`, and leaves
the namespace unchanged: every name is bound to the same object as before the call,
or to none as before. -/
theorem unlink_never_created {ν σ : Type} (H : Host ν σ) (V : HostView ν σ)
    (name : ν) (cs : List (BridgeCall ν)) (s₀ : σ)
    (hopen : OpenBindsOnlyCreated H V) (hunl : UnlinkBindsNothing H V)
    (hunb : UnlinkUnbound H V)
    (hv : V.validName name = true) (hb : V.bound s₀ name = false)
    (hnever : ∀ (oflag mode : Int),
      BridgeCall.shm_open_bridge name oflag mode ∈ cs → V.creat oflag = false) :
    (shm_unlink_bridge H name (runCalls H cs s₀)).1 ≠ 0 ∧
      V.error (shm_unlink_bridge H name (runCalls H cs s₀)).2 = some HostError.NotFound ∧
      ∀ n : ν,
        V.binding (shm_unlink_bridge H name (runCalls H cs s₀)).2 n
          = V.binding (runCalls H cs s₀) n :=
  hunb name (runCalls H cs s₀) hv (runCalls_unbound H V name hopen hunl cs s₀ hb hnever)

/-- Witness for C7 on the reference host: from the initial state `/other` is created,
`/never` is unlinked and opened without the create flag, and then `/never` is
unlinked. -/
theorem unlink_never_created_witness :
    (refView.validName "/never" = true ∧ refView.bound refInit "/never" = false) ∧
      (shm_unlink_bridge refHost "/never"
        (runCalls refHost
          [BridgeCall.shm_open_bridge "/other" 2562 420,
            BridgeCall.shm_unlink_bridge "/never",
            BridgeCall.shm_open_bridge "/never" 2 0] refInit)).1 ≠ 0 ∧
      refView.error (shm_unlink_bridge refHost "/never"
        (runCalls refHost
          [BridgeCall.shm_open_bridge "/other" 2562 420,
            BridgeCall.shm_unlink_bridge "/never",
            BridgeCall.shm_open_bridge "/never" 2 0] refInit)).2 = some HostError.NotFound ∧
      ∀ n : String,
        refView.binding (shm_unlink_bridge refHost "/never"
          (runCalls refHost
            [BridgeCall.shm_open_bridge "/other" 2562 420,
              BridgeCall.shm_unlink_bridge "/never",
              BridgeCall.shm_open_bridge "/never" 2 0] refInit)).2 n
          = refView.binding
            (runCalls refHost
              [BridgeCall.shm_open_bridge "/other" 2562 420,
                BridgeCall.shm_unlink_bridge "/never",
                BridgeCall.shm_open_bridge "/never" 2 0] refInit) n :=
  ⟨⟨rfl, rfl⟩,
    unlink_never_created refHost refView "/never"
      [BridgeCall.shm_open_bridge "/other" 2562 420,
        BridgeCall.shm_unlink_bridge "/never",
        BridgeCall.shm_open_bridge "/never" 2 0] refInit
      refHost_openBindsOnlyCreated refHost_unlinkBindsNothing refHost_unlinkUnbound rfl rfl
      (by
        intro oflag mode hm
        simp only [List.mem_cons, List.mem_singleton, BridgeCall.shm_open_bridge.injEq,
          List.not_mem_nil, or_false, false_or, reduceCtorEq] at hm
        rcases hm with ⟨h, _, _⟩ | ⟨_, h, _⟩
        · exact absurd h (by decide)
        · rw [h]; rfl)⟩

/-- C8 (as stated, refuted): on the reference host with room for one more descriptor,
`/seg` is valid, the create succeeds with descriptor `3`, the unlink returns zero and
removes the binding, and yet the second create returns `-1`: the first handle is
still open, so the host refuses with `ResourceExhausted`.  And where `/seg` is bound
to an object the caller does not own, the open with the create flag succeeds, the
unlink is refused with `PermissionDenied`, and the second, exclusive, create fails. -/
theorem create_unlink_create_refused :
    (refView.validName "/seg" = true ∧ refView.creat 2562 = true ∧ refView.creat 514 = true) ∧
      ((shm_open_bridge refHost "/seg" 2562 420 refTight).1 = 3 ∧
        (shm_unlink_bridge refHost "/seg"
          (shm_open_bridge refHost "/seg" 2562 420 refTight).2).1 = 0 ∧
        refView.bound
          (shm_unlink_bridge refHost "/seg"
            (shm_open_bridge refHost "/seg" 2562 420 refTight).2).2 "/seg" = false ∧
        (shm_open_bridge refHost "/seg" 2562 420
          (shm_unlink_bridge refHost "/seg"
            (shm_open_bridge refHost "/seg" 2562 420 refTight).2).2).1 = -1 ∧
        refView.error (shm_open_bridge refHost "/seg" 2562 420
          (shm_unlink_bridge refHost "/seg"
            (shm_open_bridge refHost "/seg" 2562 420 refTight).2).2).2
              = some HostError.ResourceExhausted) ∧
      ((shm_open_bridge refHost "/seg" 514 420 refForeign).1 = 3 ∧
        (shm_unlink_bridge refHost "/seg"
          (shm_open_bridge refHost "/seg" 514 420 refForeign).2).1 = -1 ∧
        refView.error (shm_unlink_bridge refHost "/seg"
          (shm_open_bridge refHost "/seg" 514 420 refForeign).2).2
            = some HostError.PermissionDenied ∧
        (shm_open_bridge refHost "/seg" 2562 420
          (shm_unlink_bridge refHost "/seg"
            (shm_open_bridge refHost "/seg" 514 420 refForeign).2).2).1 = -1) := by
  refine ⟨⟨rfl, rfl, rfl⟩, ⟨rfl, rfl, rfl, rfl, rfl⟩, ⟨rfl, rfl, rfl, rfl⟩⟩

/-- C8 (amended): create, unlink, create again.  For every valid name and every starting
state: after a `shm_open_bridge` call on that name (with the create flag or any
other flags), when the `shm_unlink_bridge` call on the same name returns zero the
name has no binding left, and a second `shm_open_bridge` call with the create flag is
served as the create of a fresh name: it returns a non-negative handle and binds the
name, unless the host refuses it with a negative value and error state
`PermissionDenied` or `ResourceExhausted` (never `AlreadyExists`). -/
theorem create_unlink_create {ν σ : Type} (H : Host ν σ) (V : HostView ν σ)
    (name : ν) (oflag₁ mode₁ oflag₂ mode₂ : Int) (s : σ)
    (hout : CreateFreshOutcome H V) (hst : UnlinkStatus H V)
    (hv : V.validName name = true) (hc₂ : V.creat oflag₂ = true)
    (hu : (shm_unlink_bridge H name (shm_open_bridge H name oflag₁ mode₁ s).2).1 = 0) :
    V.bound (shm_unlink_bridge H name (shm_open_bridge H name oflag₁ mode₁ s).2).2 name
        = false ∧
      ((0 ≤ (shm_open_bridge H name oflag₂ mode₂
            (shm_unlink_bridge H name (shm_open_bridge H name oflag₁ mode₁ s).2).2).1 ∧
          V.bound (shm_open_bridge H name oflag₂ mode₂
            (shm_unlink_bridge H name (shm_open_bridge H name oflag₁ mode₁ s).2).2).2 name
              = true) ∨
        ((shm_open_bridge H name oflag₂ mode₂
            (shm_unlink_bridge H name (shm_open_bridge H name oflag₁ mode₁ s).2).2).1 < 0 ∧
          (V.error (shm_open_bridge H name oflag₂ mode₂
              (shm_unlink_bridge H name (shm_open_bridge H name oflag₁ mode₁ s).2).2).2
                = some HostError.PermissionDenied ∨
            V.error (shm_open_bridge H name oflag₂ mode₂
              (shm_unlink_bridge H name (shm_open_bridge H name oflag₁ mode₁ s).2).2).2
                = some HostError.ResourceExhausted))) := by
  have hgone : V.bound (shm_unlink_bridge H name (shm_open_bridge H name oflag₁ mode₁ s).2).2
      name = false := ((hst name (shm_open_bridge H name oflag₁ mode₁ s).2).mp hu).2
  have hcases := hout name oflag₂ (mode_t_cast H.mode_bits mode₂)
    (shm_unlink_bridge H name (shm_open_bridge H name oflag₁ mode₁ s).2).2 hv hgone hc₂
  exact ⟨hgone, hcases.imp id (fun h => ⟨h.1, h.2.1⟩)⟩

/-- Witness for C8 (amended) on the reference host: `/seg` is created exclusively,
unlinked, and created exclusively again, from the initial state. -/
theorem create_unlink_create_witness :
    (shm_unlink_bridge refHost "/seg" (shm_open_bridge refHost "/seg" 2562 420 refInit).2).1 = 0 ∧
      refView.bound
        (shm_unlink_bridge refHost "/seg" (shm_open_bridge refHost "/seg" 2562 420 refInit).2).2
        "/seg" = false ∧
      ((0 ≤ (shm_open_bridge refHost "/seg" 2562 420
            (shm_unlink_bridge refHost "/seg"
              (shm_open_bridge refHost "/seg" 2562 420 refInit).2).2).1 ∧
          refView.bound (shm_open_bridge refHost "/seg" 2562 420
            (shm_unlink_bridge refHost "/seg"
              (shm_open_bridge refHost "/seg" 2562 420 refInit).2).2).2 "/seg" = true) ∨
        ((shm_open_bridge refHost "/seg" 2562 420
            (shm_unlink_bridge refHost "/seg"
              (shm_open_bridge refHost "/seg" 2562 420 refInit).2).2).1 < 0 ∧
          (refView.error (shm_open_bridge refHost "/seg" 2562 420
              (shm_unlink_bridge refHost "/seg"
                (shm_open_bridge refHost "/seg" 2562 420 refInit).2).2).2
                  = some HostError.PermissionDenied ∨
            refView.error (shm_open_bridge refHost "/seg" 2562 420
              (shm_unlink_bridge refHost "/seg"
                (shm_open_bridge refHost "/seg" 2562 420 refInit).2).2).2
                  = some HostError.ResourceExhausted))) :=
  ⟨rfl, create_unlink_create refHost refView "/seg" 2562 420 2562 420 refInit
    refHost_createFreshOutcome refHost_unlinkStatus rfl rfl rfl⟩

/-! ## Concurrent callers

One bridge call is one host request, and the host answers requests one at a time, so
a run of concurrently invoking callers is the run of their requests in the order in
which the host serves them.  A statement for every list of invocations is a statement
for every such order. -/

end ShmBridge
